import Mathlib

/-!
Verification of the superphenix-velero-plugin network-identity resolution engine.

This file shallowly embeds the Go code of `pkg/util/kubeovn.go`, the VM
enumerator of the util package, and the backup action `Execute` of
`pkg/plugin/vm_backup_item_action.go`, and proves properties of the embedding.

Modelling conventions:
* Go strings are `List Char` (`Str`); `splitChar`, `hasSuffix`, `cutSuffix` and
  `joinComma` embed `strings.Split` (single-character separator),
  `strings.HasSuffix`, `strings.CutSuffix` and `strings.Join` respectively.
* A Go function returning `(T, error)` becomes `Except KubeOvnError T`; the
  inductive `KubeOvnError` has one constructor per distinct `fmt.Errorf` site
  (wrapping with `%w` preserves the wrapped kind and is modelled away).
* The Kube-OVN client is modelled as an injected total lookup `Store`
  (`Str → Option IP`); a `none` result is the store's NotFound error.
  Client-construction failure (transport) is outside the embedded state.
* Go maps built by repeated assignment become association lists with
  `mapInsert` (overwrite-by-key, append new keys) and `mapGet` lookup.
* Identifier suffix `Ann` abbreviates the Go identifiers' `Annotation`.
-/

namespace SPX

/-- Go strings, embedded as their character lists. -/
abbrev Str := List Char

/-- Coerce a Lean string literal to the embedding type. -/
def str (s : String) : Str := s.toList

/-- Embedding of Go `strings.Split(s, sep)` for a single-character separator:
the list of maximal runs between occurrences of `sep`; the empty string splits
to `[""]`. -/
def splitChar (sep : Char) : Str → List Str
  | [] => [[]]
  | c :: rest =>
    if c = sep then
      [] :: splitChar sep rest
    else
      match splitChar sep rest with
      | [] => [[c]]
      | r :: rs => (c :: r) :: rs

/-- Embedding of Go `strings.HasSuffix(s, suffix)`. -/
def hasSuffix (s suf : Str) : Bool :=
  decide (suf.length ≤ s.length) && decide (s.drop (s.length - suf.length) = suf)

/-- Embedding of Go `strings.CutSuffix(s, suffix)`: `some` of the prefix when
the suffix is present, `none` otherwise (Go returns `(s, false)` there; only
the boolean outcome and the cut prefix are consumed by the source). -/
def cutSuffix (s suf : Str) : Option Str :=
  if hasSuffix s suf then some (s.take (s.length - suf.length)) else none

/-- Embedding of Go `strings.Join(xs, ",")`. -/
def joinComma : List Str → Str
  | [] => []
  | [s] => s
  | s :: rest => s ++ ',' :: joinComma rest

/-- The spec field of a Kube-OVN `IP` custom resource, restricted to the fields
the source reads: `V4IPAddress`, `V6IPAddress`, `MacAddress`. -/
structure IPSpec where
  v4IPAddress : Str
  v6IPAddress : Str
  macAddress : Str
  deriving DecidableEq

/-- A Kube-OVN `IP` custom resource (address record). -/
structure IP where
  spec : IPSpec
  deriving DecidableEq

/-- Placeholder record used only as the default of positional lookups. -/
def emptyIP : IP := ⟨⟨[], [], []⟩⟩

instance : Inhabited IP := ⟨emptyIP⟩

/-- The `NetInfo` struct of the source: one interface's attachment key
(`NADAnnotation` in Go, `nadAnn` here), MAC, and joined IP string. -/
structure NetInfo where
  nadAnn : Str
  mac : Str
  ips : Str
  deriving DecidableEq

/-- A Kubevirt `MultusNetwork` declaration: its `NetworkName` and `Default`
flag (named `isDefault` here). -/
structure MultusNetwork where
  networkName : Str
  isDefault : Bool
  deriving DecidableEq

/-- A Kubevirt `Network` declaration: the `Pod` and `Multus` pointers of the
Go `NetworkSource` (either may be absent). -/
structure Network where
  pod : Option Unit
  multus : Option MultusNetwork
  deriving DecidableEq

/-- Placeholder declaration used only as the default of positional lookups. -/
def netZero : Network := ⟨none, none⟩

/-- A Kubevirt `VirtualMachine`, restricted to the fields the source reads:
name, namespace (`ns`), `Spec.Template.Spec.Networks`, and the template
metadata annotations (`templateAnns`) that the backup action is meant to
extend. -/
structure VirtualMachine where
  name : Str
  ns : Str
  networks : List Network
  templateAnns : List (Str × Str)
  deriving DecidableEq

/-- The injected address-record store: the Kube-OVN client's `IPs().Get`,
keyed by record name. -/
abbrev Store := Str → Option IP

/-- Error kinds, one per distinct error construction site of the source
(`%w`-wrapping preserves the inner kind and is not modelled). -/
inductive KubeOvnError where
  /-- kubeovn.go:82 - annotation lacks the `ovn.kubernetes.io` suffix. -/
  | invalidAnnSuffix (nadAnn : Str)
  /-- kubeovn.go:101 and kubeovn.go:111 - VM name or namespace empty. -/
  | emptyIdentity (vmName vmNs : Str)
  /-- kubeovn.go:117 - the `.ovn.kubernetes.io` suffix could not be cut. -/
  | nadSuffixNotCut (nadAnn : Str)
  /-- kubeovn.go:124 - the cut annotation is not of pattern `[NAD].[NS]`. -/
  | malformedNadPattern (ann : Str)
  /-- kubeovn.go:130 - NAD namespace differs from the VM namespace. -/
  | namespaceMismatch (nadNs vmNs : Str)
  /-- kubeovn.go:140 - network name is not of format `[NS]/[NAD]`. -/
  | malformedNetworkName (networkName : Str)
  /-- kubeovn.go:61 - the store holds no record under the derived name. -/
  | recordNotFound (ipName : Str)
  /-- util facade - nil `VirtualMachine` argument. -/
  | nilVM
  /-- vm_backup_item_action.go:39 - nil `Backup` argument. -/
  | nilBackup
  /-- vm_backup_item_action.go:54 - the VM cannot be safely backed up. -/
  | vmNotSafe
  /-- vm_backup_item_action.go:68 - the VM would not be restored correctly. -/
  | vmNotRestorable
  deriving DecidableEq

/-- The constant `defaultNetworkAnnotation` = `"ovn.kubernetes.io"`. -/
def defaultNetworkAnn : Str := str "ovn.kubernetes.io"

/-- Embedding of `getIPNameForDefaultNetwork`: `"<vmName>.<vmNamespace>"`, or
an error when either component is empty. -/
def getIPNameForDefaultNetwork (vmName vmNs : Str) : Except KubeOvnError Str :=
  if vmName = [] ∨ vmNs = [] then
    Except.error (KubeOvnError.emptyIdentity vmName vmNs)
  else
    Except.ok (vmName ++ '.' :: vmNs)

/-- Embedding of `getIPNameForNADNetwork`: checks the identity, cuts the
`.ovn.kubernetes.io` suffix, splits the remainder on `.` into `[NAD].[NS]`,
rejects a namespace mismatch, and produces
`"<vmName>.<vmNs>.<nadName>.<nadNs>.ovn"`. -/
def getIPNameForNADNetwork (nadAnn vmName vmNs : Str) : Except KubeOvnError Str :=
  if vmName = [] ∨ vmNs = [] then
    Except.error (KubeOvnError.emptyIdentity vmName vmNs)
  else
    match cutSuffix nadAnn ('.' :: defaultNetworkAnn) with
    | none => Except.error (KubeOvnError.nadSuffixNotCut nadAnn)
    | some ann =>
      let split := splitChar '.' ann
      if split.length = 2 then
        let nadName := split.getD 0 []
        let nadNs := split.getD 1 []
        if vmNs ≠ nadNs then
          Except.error (KubeOvnError.namespaceMismatch nadNs vmNs)
        else
          Except.ok (vmName ++ '.' :: vmNs ++ '.' :: nadName ++ '.' :: nadNs ++ str ".ovn")
      else
        Except.error (KubeOvnError.malformedNadPattern ann)

/-- Embedding of `getIPCRNameForVM`: requires the `ovn.kubernetes.io` suffix,
then dispatches on default vs NAD-attached network. -/
def getIPCRNameForVM (nadAnn vmName vmNs : Str) : Except KubeOvnError Str :=
  if ¬ hasSuffix nadAnn defaultNetworkAnn then
    Except.error (KubeOvnError.invalidAnnSuffix nadAnn)
  else if nadAnn = defaultNetworkAnn then
    getIPNameForDefaultNetwork vmName vmNs
  else
    getIPNameForNADNetwork nadAnn vmName vmNs

/-- Embedding of `NetworkNameToNadAnnotation`: splits the Kubevirt network
name on `/` and, when that yields exactly two components, produces
`"<name>.<namespace>.ovn.kubernetes.io"`. -/
def NetworkNameToNadAnn (networkName : Str) : Except KubeOvnError Str :=
  let split := splitChar '/' networkName
  if split.length = 2 then
    Except.ok (split.getD 1 [] ++ '.' :: split.getD 0 [] ++ '.' :: defaultNetworkAnn)
  else
    Except.error (KubeOvnError.malformedNetworkName networkName)

/-- Embedding of `GetIPForVM`: derive the record name, then fetch it from the
store. -/
def GetIPForVM (store : Store) (nadAnn vmName vmNs : Str) : Except KubeOvnError IP :=
  match getIPCRNameForVM nadAnn vmName vmNs with
  | Except.error e => Except.error e
  | Except.ok ipName =>
    match store ipName with
    | some ip => Except.ok ip
    | none => Except.error (KubeOvnError.recordNotFound ipName)

/-- Embedding of `GetIPsForDefaultNetwork`: the default-network record,
wrapped in a one-element list. -/
def GetIPsForDefaultNetwork (store : Store) (vmName vmNs : Str) :
    Except KubeOvnError (List IP) :=
  match GetIPForVM store defaultNetworkAnn vmName vmNs with
  | Except.error e => Except.error e
  | Except.ok ip => Except.ok [ip]

/-- The `network.Pod != nil` branch of the `GetIPsForVM` loop body: its
contribution of records, attachment keys, and the `explicitPodNetwork` flag. -/
def stepPod (store : Store) (vmName vmNs : Str) (network : Network) :
    Except KubeOvnError (List IP × List Str × Bool) :=
  match network.pod with
  | none => Except.ok ([], [], false)
  | some _ =>
    match GetIPsForDefaultNetwork store vmName vmNs with
    | Except.error e => Except.error e
    | Except.ok ip => Except.ok (ip, [defaultNetworkAnn], true)

/-- The `network.Multus != nil` branch of the `GetIPsForVM` loop body: its
contribution of records, attachment keys, and the `multusIsPrimary` flag. -/
def stepMultus (store : Store) (vmName vmNs : Str) (network : Network) :
    Except KubeOvnError (List IP × List Str × Bool) :=
  match network.multus with
  | none => Except.ok ([], [], false)
  | some m =>
    match NetworkNameToNadAnn m.networkName with
    | Except.error e => Except.error e
    | Except.ok nadAnn =>
      match GetIPForVM store nadAnn vmName vmNs with
      | Except.error e => Except.error e
      | Except.ok ip => Except.ok ([ip], [nadAnn], m.isDefault)

/-- The loop of `GetIPsForVM` over the VM's network declarations, returning
the accumulated records, attachment keys, and the two flags
(`multusIsPrimary` at position `.2.2.1`, `explicitPodNetwork` at `.2.2.2`);
the first error short-circuits. Each declaration contributes its pod part
then its multus part, in that order, and the flags are the disjunctions of
the per-declaration flags. -/
def processNetworks (store : Store) (vmName vmNs : Str) :
    List Network → Except KubeOvnError (List IP × List Str × Bool × Bool)
  | [] => Except.ok ([], [], false, false)
  | network :: rest =>
    match stepPod store vmName vmNs network with
    | Except.error e => Except.error e
    | Except.ok pod =>
      match stepMultus store vmName vmNs network with
      | Except.error e => Except.error e
      | Except.ok mul =>
        match processNetworks store vmName vmNs rest with
        | Except.error e => Except.error e
        | Except.ok r =>
          Except.ok (pod.1 ++ mul.1 ++ r.1, pod.2.1 ++ mul.2.1 ++ r.2.1,
                     mul.2.2 || r.2.2.1, pod.2.2 || r.2.2.2)

/-- Embedding of `GetIPsForVM`: an empty declaration list resolves exactly the
default network; otherwise the loop runs and, when neither `multusIsPrimary`
(`r.2.2.1`) nor `explicitPodNetwork` (`r.2.2.2`) was set, an implicit
default-network resolution is appended last. -/
def GetIPsForVM (store : Store) (vm : VirtualMachine) :
    Except KubeOvnError (List IP × List Str) :=
  if vm.networks = [] then
    match GetIPsForDefaultNetwork store vm.name vm.ns with
    | Except.error e => Except.error e
    | Except.ok ips => Except.ok (ips, [defaultNetworkAnn])
  else
    match processNetworks store vm.name vm.ns vm.networks with
    | Except.error e => Except.error e
    | Except.ok r =>
      if !r.2.2.1 && !r.2.2.2 then
        match GetIPsForDefaultNetwork store vm.name vm.ns with
        | Except.error e => Except.error e
        | Except.ok ip => Except.ok (r.1 ++ ip, r.2.1 ++ [defaultNetworkAnn])
      else
        Except.ok (r.1, r.2.1)

/-- Embedding of `IPToNetInfo`: keep whichever of the two address fields are
non-empty, IPv4 first, and comma-join them. -/
def IPToNetInfo (nadAnn : Str) (ip : IP) : NetInfo :=
  let ips : List Str :=
    (if ip.spec.v4IPAddress ≠ [] then [ip.spec.v4IPAddress] else []) ++
    (if ip.spec.v6IPAddress ≠ [] then [ip.spec.v6IPAddress] else [])
  { nadAnn := nadAnn, mac := ip.spec.macAddress, ips := joinComma ips }

/-- Embedding of `NetInfo.ToAnnotations`: the Go two-entry map literal keyed
`<nadAnn>/mac_address` and `<nadAnn>/ip_address`, as an association list. -/
def NetInfo.toAnns (n : NetInfo) : List (Str × Str) :=
  [(n.nadAnn ++ '/' :: str "mac_address", n.mac),
   (n.nadAnn ++ '/' :: str "ip_address", n.ips)]

/-- Go map assignment `m[k] = v` on an association list: overwrite the value
under an existing key, otherwise append the new pair. -/
def mapInsert (m : List (Str × Str)) (k v : Str) : List (Str × Str) :=
  if m.any (fun kv => kv.1 = k) then
    m.map (fun kv => if kv.1 = k then (k, v) else kv)
  else
    m ++ [(k, v)]

/-- Go map lookup `m[k]` on an association list. -/
def mapGet (m : List (Str × Str)) (k : Str) : Option Str :=
  (m.find? (fun kv => kv.1 = k)).map (fun kv => kv.2)

/-- Embedding of `GetNetInfoForVm`: pair each fetched record with the
attachment key at the same position (Go indexes `nads[i]` while ranging over
`ips`; the positional defaults are never consulted because the enumerator
returns lists of equal length). -/
def GetNetInfoForVm (store : Store) (vm : VirtualMachine) :
    Except KubeOvnError (List NetInfo) :=
  match GetIPsForVM store vm with
  | Except.error e => Except.error e
  | Except.ok (ips, nads) =>
    Except.ok ((List.range ips.length).map fun i =>
      IPToNetInfo (nads.getD i []) (ips.getD i emptyIP))

/-- Embedding of `GetKubeovnAnnotationsForVM`: reject a nil VM, resolve its
interfaces, and fold every interface's two entries into one map. -/
def GetKubeovnAnnsForVM (store : Store) (vm : Option VirtualMachine) :
    Except KubeOvnError (List (Str × Str)) :=
  match vm with
  | none => Except.error KubeOvnError.nilVM
  | some vm =>
    match GetNetInfoForVm store vm with
    | Except.error e => Except.error e
    | Except.ok netInfo =>
      Except.ok (netInfo.foldl
        (fun acc ni => ni.toAnns.foldl (fun acc kv => mapInsert acc kv.1 kv.2) acc) [])

/-- Embedding of `VMBackupItemAction.Execute`. The external collaborators are
parameters: `backupPresent` models `backup != nil`, `safe` the outcome of
`canBeSafelyBackedUp`, `isMetadataBackup` and `restorePossible` the
kubevirt-velero-plugin boundary calls (all outside this repository). On the
success path the source converts the parsed VM back to unstructured and
returns it as is. -/
def Execute (vm : VirtualMachine) (backupPresent safe isMetadataBackup restorePossible : Bool) :
    Except KubeOvnError VirtualMachine :=
  if !backupPresent then
    Except.error KubeOvnError.nilBackup
  else if !safe then
    Except.error KubeOvnError.vmNotSafe
  else if !isMetadataBackup && !restorePossible then
    Except.error KubeOvnError.vmNotRestorable
  else
    Except.ok vm

deriving instance DecidableEq for Except

/-- Concrete fixture: the default-network record of the spec's concrete
scenario (`10.0.0.1` / `00:00:00:00:00:01`). -/
def ipDef : IP := ⟨⟨str "10.0.0.1", [], str "00:00:00:00:00:01"⟩⟩

/-- Concrete fixture: the record of the secondary attachment `nad1`. -/
def ipNad1 : IP := ⟨⟨str "10.0.0.11", [], str "00:00:00:00:00:11"⟩⟩

/-- Concrete fixture store holding the records `test-vm.test-ns` and
`test-vm.test-ns.nad1.test-ns.ovn`. -/
def wStore : Store := fun s =>
  if s = str "test-vm.test-ns" then some ipDef
  else if s = str "test-vm.test-ns.nad1.test-ns.ovn" then some ipNad1
  else none

/-- Concrete fixture VM with an empty network declaration list. -/
def wVMEmpty : VirtualMachine := ⟨str "test-vm", str "test-ns", [], []⟩

/-- Concrete fixture VM with one non-default-flagged multus declaration. -/
def wVMSec : VirtualMachine :=
  ⟨str "test-vm", str "test-ns", [⟨none, some ⟨str "test-ns/nad1", false⟩⟩], []⟩

/-- Concrete fixture VM with one multus declaration flagged as default. -/
def wVMPrimary : VirtualMachine :=
  ⟨str "test-vm", str "test-ns", [⟨none, some ⟨str "test-ns/nad1", true⟩⟩], []⟩

/-- Concrete fixture VM with one declaration that is neither pod nor multus. -/
def wVMPlain : VirtualMachine :=
  ⟨str "test-vm", str "test-ns", [⟨none, none⟩], []⟩

/-- Correspondence between one returned attachment key and one returned
record: the record was fetched from the store under the identifier derived
from that key and the VM's identity. -/
def fetchedAt (store : Store) (vmName vmNs : Str) (nadAnn : Str) (ip : IP) : Prop :=
  ∃ ipName, getIPCRNameForVM nadAnn vmName vmNs = Except.ok ipName ∧ store ipName = some ip

/-- Pointwise `fetchedAt` between an attachment-key list and a record list of
the same length. -/
def FetchAll (store : Store) (vmName vmNs : Str) : List Str → List IP → Prop
  | [], [] => True
  | nadAnn :: nads, ip :: ips =>
    fetchedAt store vmName vmNs nadAnn ip ∧ FetchAll store vmName vmNs nads ips
  | _, _ => False

theorem splitChar_ne_nil (sep : Char) (s : Str) : splitChar sep s ≠ [] := by
  induction s with
  | nil => simp [splitChar]
  | cons c rest ih =>
    by_cases h : c = sep
    · simp [splitChar, h]
    · simp only [splitChar, if_neg h]
      cases hr : splitChar sep rest with
      | nil => exact absurd hr ih
      | cons r rs => simp

theorem splitChar_of_not_mem {sep : Char} {s : Str} (h : sep ∉ s) : splitChar sep s = [s] := by
  induction s with
  | nil => rfl
  | cons c rest ih =>
    have hc : ¬ c = sep := fun hcs => h (hcs ▸ List.mem_cons_self c rest)
    have hr : sep ∉ rest := fun hm => h (List.mem_cons_of_mem _ hm)
    simp only [splitChar, if_neg hc, ih hr]

theorem splitChar_append {sep : Char} {a : Str} (b : Str) (ha : sep ∉ a) :
    splitChar sep (a ++ sep :: b) = a :: splitChar sep b := by
  induction a with
  | nil => simp [splitChar]
  | cons c a2 ih =>
    have hc : ¬ c = sep := fun hcs => ha (hcs ▸ List.mem_cons_self c a2)
    have ha2 : sep ∉ a2 := fun hm => ha (List.mem_cons_of_mem _ hm)
    show splitChar sep (c :: (a2 ++ sep :: b)) = (c :: a2) :: splitChar sep b
    rw [splitChar, if_neg hc, ih ha2]

theorem length_splitChar (sep : Char) (s : Str) :
    (splitChar sep s).length = s.count sep + 1 := by
  induction s with
  | nil => simp [splitChar]
  | cons c rest ih =>
    by_cases h : c = sep
    · subst h
      simp [splitChar, ih, List.count_cons]
    · cases hr : splitChar sep rest with
      | nil => exact absurd hr (splitChar_ne_nil sep rest)
      | cons r rs =>
        rw [hr] at ih
        simp only [splitChar, if_neg h, hr, List.length_cons, List.count_cons]
        simp only [List.length_cons] at ih
        have hcs : ¬ (c == sep) = true := by simpa using h
        simp [hcs, ih]

theorem hasSuffix_append (a b : Str) : hasSuffix (a ++ b) b = true := by
  simp [hasSuffix, List.length_append, Nat.add_sub_cancel, List.drop_left]

theorem cutSuffix_append (a b : Str) : cutSuffix (a ++ b) b = some a := by
  simp [cutSuffix, hasSuffix_append, List.length_append, Nat.add_sub_cancel, List.take_left]

theorem fetchAll_append {store : Store} {vmName vmNs : Str} :
    ∀ {a c : List Str} {b d : List IP},
      FetchAll store vmName vmNs a b → FetchAll store vmName vmNs c d →
      FetchAll store vmName vmNs (a ++ c) (b ++ d) := by
  intro a
  induction a with
  | nil =>
    intro c b d h1 h2
    cases b with
    | nil => simpa using h2
    | cons y ys => exact absurd h1 (by simp [FetchAll])
  | cons x xs ih =>
    intro c b d h1 h2
    cases b with
    | nil => exact absurd h1 (by simp [FetchAll])
    | cons y ys => exact ⟨h1.1, ih h1.2 h2⟩

theorem fetchAll_length {store : Store} {vmName vmNs : Str} :
    ∀ {a : List Str} {b : List IP}, FetchAll store vmName vmNs a b → a.length = b.length := by
  intro a
  induction a with
  | nil =>
    intro b h
    cases b with
    | nil => rfl
    | cons y ys => exact absurd h (by simp [FetchAll])
  | cons x xs ih =>
    intro b h
    cases b with
    | nil => exact absurd h (by simp [FetchAll])
    | cons y ys => simpa using ih h.2

theorem fetchAll_getD {store : Store} {vmName vmNs : Str} :
    ∀ {a : List Str} {b : List IP}, FetchAll store vmName vmNs a b →
      ∀ i, i < a.length → fetchedAt store vmName vmNs (a.getD i []) (b.getD i emptyIP) := by
  intro a
  induction a with
  | nil => intro b h i hi; simp at hi
  | cons x xs ih =>
    intro b h i hi
    cases b with
    | nil => exact absurd h (by simp [FetchAll])
    | cons y ys =>
      cases i with
      | zero => simpa using h.1
      | succ n =>
        simp only [List.getD_cons_succ]
        exact ih h.2 n (by simpa using hi)

theorem getIPForVM_ok {store : Store} {nadAnn vmName vmNs : Str} {ip : IP}
    (h : GetIPForVM store nadAnn vmName vmNs = Except.ok ip) :
    fetchedAt store vmName vmNs nadAnn ip := by
  unfold GetIPForVM at h
  split at h
  · exact absurd h (by simp)
  · rename_i ipName hn
    split at h
    · rename_i ip2 hs
      simp at h
      exact ⟨ipName, hn, by rw [hs, h]⟩
    · exact absurd h (by simp)

theorem getIPsForDefaultNetwork_ok {store : Store} {vmName vmNs : Str} {ips : List IP}
    (h : GetIPsForDefaultNetwork store vmName vmNs = Except.ok ips) :
    ∃ ip, ips = [ip] ∧ fetchedAt store vmName vmNs defaultNetworkAnn ip := by
  unfold GetIPsForDefaultNetwork at h
  split at h
  · exact absurd h (by simp)
  · rename_i ip hg
    simp at h
    exact ⟨ip, h.symm, getIPForVM_ok hg⟩

theorem stepPod_ok {store : Store} {vmName vmNs : Str} {net : Network}
    {ips : List IP} {nads : List Str} {flag : Bool}
    (h : stepPod store vmName vmNs net = Except.ok (ips, nads, flag)) :
    FetchAll store vmName vmNs nads ips := by
  unfold stepPod at h
  split at h
  · simp at h
    obtain ⟨h1, h2, _⟩ := h
    subst h1; subst h2
    trivial
  · split at h
    · exact absurd h (by simp)
    · rename_i ipl hd
      simp at h
      obtain ⟨ip, hip, hf⟩ := getIPsForDefaultNetwork_ok hd
      obtain ⟨h1, h2, _⟩ := h
      subst h1; subst h2; subst hip
      exact ⟨hf, trivial⟩

theorem stepMultus_ok {store : Store} {vmName vmNs : Str} {net : Network}
    {ips : List IP} {nads : List Str} {flag : Bool}
    (h : stepMultus store vmName vmNs net = Except.ok (ips, nads, flag)) :
    FetchAll store vmName vmNs nads ips := by
  unfold stepMultus at h
  split at h
  · simp at h
    obtain ⟨h1, h2, _⟩ := h
    subst h1; subst h2
    trivial
  · split at h
    · exact absurd h (by simp)
    · rename_i nadAnn ha
      split at h
      · exact absurd h (by simp)
      · rename_i ip hg
        simp at h
        obtain ⟨h1, h2, _⟩ := h
        subst h1; subst h2
        exact ⟨getIPForVM_ok hg, trivial⟩

theorem processNetworks_fetchAll {store : Store} {vmName vmNs : Str} :
    ∀ {nets : List Network} {ips : List IP} {nads : List Str} {mf pf : Bool},
      processNetworks store vmName vmNs nets = Except.ok (ips, nads, mf, pf) →
      FetchAll store vmName vmNs nads ips := by
  intro nets
  induction nets with
  | nil =>
    intro ips nads mf pf h
    simp [processNetworks] at h
    obtain ⟨h1, h2, _, _⟩ := h
    subst h1; subst h2
    trivial
  | cons net rest ih =>
    intro ips nads mf pf h
    rw [processNetworks] at h
    split at h
    · simp at h
    · rename_i pod hps
      split at h
      · simp at h
      · rename_i mul hms
        split at h
        · simp at h
        · rename_i r hr
          simp at h
          obtain ⟨h1, h2, _, _⟩ := h
          subst h1; subst h2
          exact fetchAll_append (stepPod_ok hps)
            (fetchAll_append (stepMultus_ok hms) (ih hr))

theorem stepPod_of_none {store : Store} {vmName vmNs : Str} {net : Network}
    (h : net.pod = none) : stepPod store vmName vmNs net = Except.ok ([], [], false) := by
  unfold stepPod
  rw [h]

theorem stepMultus_of_none {store : Store} {vmName vmNs : Str} {net : Network}
    (h : net.multus = none) : stepMultus store vmName vmNs net = Except.ok ([], [], false) := by
  unfold stepMultus
  rw [h]

theorem stepMultus_of_some {store : Store} {vmName vmNs : Str} {net : Network}
    {m : MultusNetwork} {ips : List IP} {nads : List Str} {flag : Bool}
    (hm : net.multus = some m)
    (h : stepMultus store vmName vmNs net = Except.ok (ips, nads, flag)) :
    ∃ nadAnn ip, NetworkNameToNadAnn m.networkName = Except.ok nadAnn ∧
      GetIPForVM store nadAnn vmName vmNs = Except.ok ip ∧
      ips = [ip] ∧ nads = [nadAnn] ∧ flag = m.isDefault := by
  unfold stepMultus at h
  simp only [hm] at h
  split at h
  · simp at h
  · rename_i nadAnn ha
    split at h
    · simp at h
    · rename_i ip hg
      simp at h
      obtain ⟨h1, h2, h3⟩ := h
      exact ⟨nadAnn, ip, ha, hg, h1.symm, h2.symm, h3.symm⟩

theorem processNetworks_cons {store : Store} {vmName vmNs : Str} {net : Network}
    {rest : List Network} {t : List IP × List Str × Bool × Bool}
    (h : processNetworks store vmName vmNs (net :: rest) = Except.ok t) :
    ∃ pod mul r,
      stepPod store vmName vmNs net = Except.ok pod ∧
      stepMultus store vmName vmNs net = Except.ok mul ∧
      processNetworks store vmName vmNs rest = Except.ok r ∧
      t = (pod.1 ++ mul.1 ++ r.1, pod.2.1 ++ mul.2.1 ++ r.2.1,
           mul.2.2 || r.2.2.1, pod.2.2 || r.2.2.2) := by
  rw [processNetworks] at h
  split at h
  · simp at h
  · rename_i pod hps
    split at h
    · simp at h
    · rename_i mul hms
      split at h
      · simp at h
      · rename_i r hr
        exact ⟨pod, mul, r, hps, hms, hr, (Except.ok.inj h).symm⟩

theorem processNetworks_skip {store : Store} {vmName vmNs : Str} :
    ∀ {nets : List Network}, (∀ x ∈ nets, x.pod = none ∧ x.multus = none) →
      processNetworks store vmName vmNs nets = Except.ok ([], [], false, false) := by
  intro nets
  induction nets with
  | nil => intro _; rfl
  | cons net rest ih =>
    intro hall
    obtain ⟨hp, hm⟩ := hall net (List.mem_cons_self net rest)
    have hrest : ∀ x ∈ rest, x.pod = none ∧ x.multus = none :=
      fun x hx => hall x (List.mem_cons_of_mem net hx)
    rw [processNetworks, stepPod_of_none hp, stepMultus_of_none hm, ih hrest]
    rfl

theorem processNetworks_multus_nondefault {store : Store} {vmName vmNs : Str} :
    ∀ {nets : List Network} {ips : List IP} {nads : List Str} {mf pf : Bool},
      (∀ x ∈ nets, x.pod = none ∧ ∃ m, x.multus = some m ∧ m.isDefault = false) →
      processNetworks store vmName vmNs nets = Except.ok (ips, nads, mf, pf) →
      mf = false ∧ pf = false ∧ nads.length = nets.length ∧
      ∀ i, i < nets.length → ∃ m,
        (nets.getD i netZero).multus = some m ∧
        NetworkNameToNadAnn m.networkName = Except.ok (nads.getD i []) := by
  intro nets
  induction nets with
  | nil =>
    intro ips nads mf pf _ h
    simp [processNetworks] at h
    obtain ⟨h1, h2, h3, h4⟩ := h
    subst h1; subst h2; subst h3; subst h4
    exact ⟨rfl, rfl, rfl, fun i hi => absurd hi (by simp)⟩
  | cons net rest ih =>
    intro ips nads mf pf hall h
    obtain ⟨hpod, m, hm, hdef⟩ := hall net (List.mem_cons_self net rest)
    have hrest : ∀ x ∈ rest, x.pod = none ∧ ∃ m2, x.multus = some m2 ∧ m2.isDefault = false :=
      fun x hx => hall x (List.mem_cons_of_mem net hx)
    obtain ⟨pod, mul, r, hps, hms, hr, ht⟩ := processNetworks_cons h
    obtain ⟨pIps, pNads, pFlag⟩ := pod
    obtain ⟨mIps, mNads, mFlag⟩ := mul
    obtain ⟨rIps, rNads, rMf, rPf⟩ := r
    have h0 := (stepPod_of_none hpod).symm.trans hps
    simp at h0
    obtain ⟨hp1, hp2, hp3⟩ := h0
    subst hp1; subst hp2; subst hp3
    obtain ⟨a, ip, ha, hg, hi1, hi2, hi3⟩ := stepMultus_of_some hm hms
    subst hi1; subst hi2
    rw [hdef] at hi3
    subst hi3
    obtain ⟨hrmf, hrpf, hrlen, hrpt⟩ := ih hrest hr
    subst hrmf; subst hrpf
    simp at ht
    obtain ⟨ht1, ht2, ht3, ht4⟩ := ht
    subst ht1; subst ht2; subst ht3; subst ht4
    refine ⟨rfl, rfl, by simp [hrlen], ?_⟩
    intro i hi
    cases i with
    | zero => exact ⟨m, by simpa using hm, by simpa using ha⟩
    | succ n =>
      have hn : n < rest.length := by simpa using hi
      obtain ⟨m2, hm2, ha2⟩ := hrpt n hn
      exact ⟨m2, by simpa using hm2, by simpa using ha2⟩

theorem getIPsForVM_fetchAll {store : Store} {vm : VirtualMachine}
    {ips : List IP} {nads : List Str}
    (h : GetIPsForVM store vm = Except.ok (ips, nads)) :
    FetchAll store vm.name vm.ns nads ips := by
  unfold GetIPsForVM at h
  split at h
  · split at h
    · simp at h
    · rename_i ipl hd
      simp at h
      obtain ⟨h1, h2⟩ := h
      subst h1; subst h2
      obtain ⟨ip, hip, hf⟩ := getIPsForDefaultNetwork_ok hd
      subst hip
      exact ⟨hf, trivial⟩
  · split at h
    · simp at h
    · rename_i r hr
      split at h
      · split at h
        · simp at h
        · rename_i ipl hd
          simp at h
          obtain ⟨h1, h2⟩ := h
          subst h1; subst h2
          obtain ⟨ip, hip, hf⟩ := getIPsForDefaultNetwork_ok hd
          subst hip
          exact fetchAll_append (processNetworks_fetchAll hr) ⟨hf, trivial⟩
      · simp at h
        obtain ⟨h1, h2⟩ := h
        subst h1; subst h2
        exact processNetworks_fetchAll hr

/-- C7: for every address record, the combined-addresses string built by
`IPToNetInfo` is the comma-joined, IPv4-first-then-IPv6 concatenation of
exactly those of the two IP address fields that are non-empty: both non-empty
joins them with one comma, a single non-empty field stands alone with no
comma, both empty yields the empty string. -/
theorem C7_combined_addresses (nadAnn : Str) (ip : IP) :
    (IPToNetInfo nadAnn ip).ips =
      if ip.spec.v4IPAddress ≠ [] ∧ ip.spec.v6IPAddress ≠ [] then
        ip.spec.v4IPAddress ++ ',' :: ip.spec.v6IPAddress
      else if ip.spec.v4IPAddress ≠ [] then ip.spec.v4IPAddress
      else if ip.spec.v6IPAddress ≠ [] then ip.spec.v6IPAddress
      else [] := by
  unfold IPToNetInfo
  by_cases h4 : ip.spec.v4IPAddress = [] <;> by_cases h6 : ip.spec.v6IPAddress = [] <;>
    simp [h4, h6, joinComma]

/-- C9: for every `NetInfo`, including one whose MAC or joined-IP string is
empty, `toAnns` is a two-entry map keyed `<nadAnn>/mac_address` and
`<nadAnn>/ip_address`; the two keys are distinct, and lookups return the MAC
and IP values even when those values are empty strings. -/
theorem C9_toAnns_two_entries (n : NetInfo) :
    n.toAnns.length = 2 ∧
    n.toAnns.map Prod.fst =
      [n.nadAnn ++ '/' :: str "mac_address", n.nadAnn ++ '/' :: str "ip_address"] ∧
    (n.nadAnn ++ '/' :: str "mac_address") ≠ (n.nadAnn ++ '/' :: str "ip_address") ∧
    mapGet n.toAnns (n.nadAnn ++ '/' :: str "mac_address") = some n.mac ∧
    mapGet n.toAnns (n.nadAnn ++ '/' :: str "ip_address") = some n.ips := by
  have hne : (n.nadAnn ++ '/' :: str "mac_address") ≠ (n.nadAnn ++ '/' :: str "ip_address") := by
    intro hcontra
    have h2 := congrArg (List.drop n.nadAnn.length) hcontra
    rw [List.drop_left, List.drop_left] at h2
    exact absurd h2 (by decide)
  refine ⟨rfl, rfl, hne, ?_, ?_⟩
  · simp [mapGet, NetInfo.toAnns, List.find?]
  · simp [mapGet, NetInfo.toAnns, List.find?, hne]

/-- C2 counterexample: the claim says `NetworkNameToNadAnnotation` fails on
every input with an empty component, but the source only checks the component
count: both `"/"` and `"a/"` split into exactly two (empty) components and
succeed. -/
theorem C2_counterexample :
    NetworkNameToNadAnn (str "/") = Except.ok (str "..ovn.kubernetes.io") ∧
    NetworkNameToNadAnn (str "a/") = Except.ok (str ".a.ovn.kubernetes.io") := by
  exact ⟨rfl, rfl⟩

/-- C2 (amended): `NetworkNameToNadAnnotation` succeeds exactly when splitting
on `/` yields exactly two components, i.e. when the input contains exactly one
slash — components may be empty, emptiness is not checked — and every failure
carries the malformed-network-name error. -/
theorem C2_corrected_slash_count (s : Str) :
    ((∃ a, NetworkNameToNadAnn s = Except.ok a) ↔ s.count '/' = 1) ∧
    (∀ e, NetworkNameToNadAnn s = Except.error e →
      e = KubeOvnError.malformedNetworkName s) := by
  have hlen := length_splitChar '/' s
  constructor
  · constructor
    · rintro ⟨a, ha⟩
      simp only [NetworkNameToNadAnn] at ha
      split at ha
      · rename_i h2; omega
      · exact absurd ha (by simp)
    · intro hc
      have h2 : (splitChar '/' s).length = 2 := by omega
      refine ⟨(splitChar '/' s).getD 1 [] ++ '.' :: (splitChar '/' s).getD 0 [] ++
        '.' :: defaultNetworkAnn, ?_⟩
      simp only [NetworkNameToNadAnn]
      rw [if_pos h2]
  · intro e he
    simp only [NetworkNameToNadAnn] at he
    split at he
    · exact absurd he (by simp)
    · exact (Except.error.inj he).symm

theorem C2_witness :
    (∃ a, NetworkNameToNadAnn (str "test-ns/test-nad") = Except.ok a) ∧
    KubeOvnError.malformedNetworkName (str "nade") =
      KubeOvnError.malformedNetworkName (str "nade") := by
  constructor
  · exact (C2_corrected_slash_count (str "test-ns/test-nad")).1.mpr (by decide)
  · exact ((C2_corrected_slash_count (str "nade")).2 _ (by rfl)).symm

/-- C6 counterexample: the claim says an empty VM name always yields the
empty-identity error for every attachment reference, well-formed or not; but
for a reference lacking the mandatory suffix the source reports the
invalid-suffix error first, even with an empty VM name. -/
theorem C6_counterexample :
    getIPCRNameForVM (str "bad") [] (str "test-ns") =
      Except.error (KubeOvnError.invalidAnnSuffix (str "bad")) ∧
    getIPCRNameForVM (str "bad") [] (str "test-ns") ≠
      Except.error (KubeOvnError.emptyIdentity [] (str "test-ns")) := by
  exact ⟨rfl, by decide⟩

/-- C6 (amended): for every attachment reference that carries the mandatory
`ovn.kubernetes.io` suffix (the default sentinel or any NAD-derived key,
well-formed beyond the suffix or not), an empty VM name or namespace makes
`getIPCRNameForVM` fail with the empty-identity error. -/
theorem C6_empty_identity_with_suffix (nadAnn vmName vmNs : Str)
    (hsuf : hasSuffix nadAnn defaultNetworkAnn = true)
    (h : vmName = [] ∨ vmNs = []) :
    getIPCRNameForVM nadAnn vmName vmNs =
      Except.error (KubeOvnError.emptyIdentity vmName vmNs) := by
  unfold getIPCRNameForVM
  rw [if_neg (by simp [hsuf])]
  by_cases hd : nadAnn = defaultNetworkAnn
  · rw [if_pos hd]
    unfold getIPNameForDefaultNetwork
    rw [if_pos h]
  · rw [if_neg hd]
    unfold getIPNameForNADNetwork
    rw [if_pos h]

theorem C6_witness :
    getIPCRNameForVM (str "bad.ovn.kubernetes.io") [] (str "test-ns") =
      Except.error (KubeOvnError.emptyIdentity [] (str "test-ns")) :=
  C6_empty_identity_with_suffix (str "bad.ovn.kubernetes.io") [] (str "test-ns")
    (by decide) (Or.inl rfl)

/-- C5: round-trip of the naming grammar. For well-formed `vm`, `ns`, `name`
(non-empty, free of dots and slashes), converting `"ns/name"` to its
attachment key and deriving the record identifier for VM `vm` in namespace
`ns` succeeds and yields exactly `"vm.ns.name.ns.ovn"`. -/
theorem C5_naming_roundtrip (vm ns name : Str)
    (hvm : vm ≠ [] ∧ '.' ∉ vm ∧ '/' ∉ vm)
    (hns : ns ≠ [] ∧ '.' ∉ ns ∧ '/' ∉ ns)
    (hname : name ≠ [] ∧ '.' ∉ name ∧ '/' ∉ name) :
    ∃ nadAnn, NetworkNameToNadAnn (ns ++ '/' :: name) = Except.ok nadAnn ∧
      getIPCRNameForVM nadAnn vm ns =
        Except.ok (vm ++ '.' :: ns ++ '.' :: name ++ '.' :: ns ++ str ".ovn") := by
  obtain ⟨hvm1, hvm2, hvm3⟩ := hvm
  obtain ⟨hns1, hns2, hns3⟩ := hns
  obtain ⟨hname1, hname2, hname3⟩ := hname
  have hsplit : splitChar '/' (ns ++ '/' :: name) = [ns, name] := by
    rw [splitChar_append name hns3, splitChar_of_not_mem hname3]
  have h1 : NetworkNameToNadAnn (ns ++ '/' :: name) =
      Except.ok (name ++ '.' :: ns ++ '.' :: defaultNetworkAnn) := by
    simp [NetworkNameToNadAnn, hsplit]
  refine ⟨_, h1, ?_⟩
  have hsuf : hasSuffix (name ++ '.' :: ns ++ '.' :: defaultNetworkAnn) defaultNetworkAnn
      = true := by
    have hshape : name ++ '.' :: ns ++ '.' :: defaultNetworkAnn =
        (name ++ '.' :: ns ++ ['.']) ++ defaultNetworkAnn := by simp
    rw [hshape]
    exact hasSuffix_append _ _
  have hne2 : name ++ '.' :: ns ++ '.' :: defaultNetworkAnn ≠ defaultNetworkAnn := by
    intro hcontra
    have hlen := congrArg List.length hcontra
    simp [List.length_append] at hlen
    omega
  have hcut : cutSuffix (name ++ '.' :: ns ++ '.' :: defaultNetworkAnn)
      ('.' :: defaultNetworkAnn) = some (name ++ '.' :: ns) := by
    have hshape : name ++ '.' :: ns ++ '.' :: defaultNetworkAnn =
        (name ++ '.' :: ns) ++ ('.' :: defaultNetworkAnn) := by simp
    rw [hshape]
    exact cutSuffix_append _ _
  have hsplit2 : splitChar '.' (name ++ '.' :: ns) = [name, ns] := by
    rw [splitChar_append ns hname2, splitChar_of_not_mem hns2]
  unfold getIPCRNameForVM
  rw [if_neg (not_not_intro hsuf)]
  rw [if_neg hne2]
  unfold getIPNameForNADNetwork
  rw [if_neg (by simp [hvm1, hns1])]
  simp only [hcut, hsplit2]
  simp

theorem C5_witness :
    ∃ nadAnn, NetworkNameToNadAnn (str "ns1" ++ '/' :: str "nad1") = Except.ok nadAnn ∧
      getIPCRNameForVM nadAnn (str "vm1") (str "ns1") =
        Except.ok (str "vm1" ++ '.' :: str "ns1" ++ '.' :: str "nad1" ++ '.' :: str "ns1"
          ++ str ".ovn") :=
  C5_naming_roundtrip (str "vm1") (str "ns1") (str "nad1") (by decide) (by decide) (by decide)

/-- C8: whenever `GetIPsForVM` returns without error, the two returned lists
have exactly the same length, and for every index the attachment key at that
position is the one whose derived record identifier was used to fetch the
record at the same position. -/
theorem C8_enumerator_invariant (store : Store) (vm : VirtualMachine)
    (ips : List IP) (nads : List Str)
    (h : GetIPsForVM store vm = Except.ok (ips, nads)) :
    nads.length = ips.length ∧
    ∀ i, i < nads.length →
      ∃ ipName, getIPCRNameForVM (nads.getD i []) vm.name vm.ns = Except.ok ipName ∧
        store ipName = some (ips.getD i emptyIP) := by
  have hall := getIPsForVM_fetchAll h
  exact ⟨fetchAll_length hall, fun i hi => fetchAll_getD hall i hi⟩

theorem C8_witness :
    ([defaultNetworkAnn] : List Str).length = ([ipDef] : List IP).length ∧
    ∀ i, i < ([defaultNetworkAnn] : List Str).length →
      ∃ ipName,
        getIPCRNameForVM (([defaultNetworkAnn] : List Str).getD i []) wVMEmpty.name wVMEmpty.ns
          = Except.ok ipName ∧
        wStore ipName = some (([ipDef] : List IP).getD i emptyIP) :=
  C8_enumerator_invariant wStore wVMEmpty [ipDef] [defaultNetworkAnn] (by rfl)

/-- C3: for every VM whose declaration list is non-empty and consists only of
multus declarations, none flagged as default and none a pod network, a
successful enumeration yields one entry per declaration in declaration order
(each keyed by the NAD annotation derived from that declaration's network
name) plus exactly one implicit default-network entry appended last. -/
theorem C3_multus_only_appends_default (store : Store) (vm : VirtualMachine)
    (hne : vm.networks ≠ [])
    (hmul : ∀ x ∈ vm.networks, x.pod = none ∧ ∃ m, x.multus = some m ∧ m.isDefault = false)
    (ips : List IP) (nads : List Str)
    (h : GetIPsForVM store vm = Except.ok (ips, nads)) :
    nads.length = vm.networks.length + 1 ∧
    ips.length = vm.networks.length + 1 ∧
    nads.getD vm.networks.length [] = defaultNetworkAnn ∧
    ∀ i, i < vm.networks.length → ∃ m,
      (vm.networks.getD i netZero).multus = some m ∧
      NetworkNameToNadAnn m.networkName = Except.ok (nads.getD i []) := by
  unfold GetIPsForVM at h
  rw [if_neg hne] at h
  split at h
  · simp at h
  · rename_i r hr
    obtain ⟨lIps, lNads, mf, pf⟩ := r
    obtain ⟨hmf, hpf, hlen, hpt⟩ := processNetworks_multus_nondefault hmul hr
    subst hmf; subst hpf
    split at h
    · split at h
      · simp at h
      · rename_i ipl hd
        simp at h
        obtain ⟨h1, h2⟩ := h
        subst h1; subst h2
        obtain ⟨ip, hip, hf⟩ := getIPsForDefaultNetwork_ok hd
        subst hip
        have hlips : lNads.length = lIps.length := fetchAll_length (processNetworks_fetchAll hr)
        refine ⟨by simp [hlen], by simp [← hlips, hlen], ?_, ?_⟩
        · rw [← hlen, List.getD_append_right _ _ _ _ (le_refl _)]
          simp
        · intro i hi
          have hi2 : i < lNads.length := by rw [hlen]; exact hi
          rw [List.getD_append _ _ _ _ hi2]
          exact hpt i hi
    · rename_i hcontra
      exfalso
      simp at hcontra

theorem C3_witness :
    ([str "nad1.test-ns.ovn.kubernetes.io", defaultNetworkAnn] : List Str).length =
      wVMSec.networks.length + 1 ∧
    ([ipNad1, ipDef] : List IP).length = wVMSec.networks.length + 1 ∧
    ([str "nad1.test-ns.ovn.kubernetes.io", defaultNetworkAnn] : List Str).getD
      wVMSec.networks.length [] = defaultNetworkAnn ∧
    ∀ i, i < wVMSec.networks.length → ∃ m,
      (wVMSec.networks.getD i netZero).multus = some m ∧
      NetworkNameToNadAnn m.networkName =
        Except.ok (([str "nad1.test-ns.ovn.kubernetes.io", defaultNetworkAnn] : List Str).getD
          i []) :=
  C3_multus_only_appends_default wStore wVMSec (by decide)
    (by
      intro x hx
      simp [wVMSec] at hx
      subst hx
      exact ⟨rfl, ⟨str "test-ns/nad1", false⟩, rfl, rfl⟩)
    [ipNad1, ipDef] [str "nad1.test-ns.ovn.kubernetes.io", defaultNetworkAnn] (by rfl)

/-- C4: for every VM whose declaration list is exactly one multus declaration
flagged as default (no pod network), a successful enumeration yields exactly
one entry — the multus attachment keyed by its NAD-derived reference, whose
record was fetched under the derived identifier — and no implicit
default-network entry is appended. -/
theorem C4_primary_multus_single_entry (store : Store) (vm : VirtualMachine)
    (m : MultusNetwork)
    (hnet : vm.networks = [⟨none, some m⟩])
    (hdef : m.isDefault = true)
    (ips : List IP) (nads : List Str)
    (h : GetIPsForVM store vm = Except.ok (ips, nads)) :
    ∃ nadAnn ip, NetworkNameToNadAnn m.networkName = Except.ok nadAnn ∧
      nads = [nadAnn] ∧ ips = [ip] ∧
      fetchedAt store vm.name vm.ns nadAnn ip := by
  unfold GetIPsForVM at h
  rw [hnet, if_neg (by simp)] at h
  split at h
  · simp at h
  · rename_i r hr
    obtain ⟨pod, mul, r2, hps, hms, hr2, ht⟩ := processNetworks_cons hr
    have hr20 : r2 = ([], [], false, false) := by
      have h0 : processNetworks store vm.name vm.ns [] = Except.ok ([], [], false, false) := rfl
      rw [h0] at hr2
      exact (Except.ok.inj hr2).symm
    subst hr20
    have hpod0 : pod = ([], [], false) := by
      have h0 : stepPod store vm.name vm.ns ⟨none, some m⟩ = Except.ok ([], [], false) :=
        stepPod_of_none rfl
      rw [h0] at hps
      exact (Except.ok.inj hps).symm
    subst hpod0
    obtain ⟨mIps, mNads, mFlag⟩ := mul
    obtain ⟨a, ip, ha, hg, hm1, hm2, hm3⟩ :=
      stepMultus_of_some (show (Network.mk none (some m)).multus = some m from rfl) hms
    subst hm1; subst hm2
    rw [hdef] at hm3
    subst hm3
    subst ht
    split at h
    · rename_i hcontra
      exfalso
      simp at hcontra
    · simp at h
      obtain ⟨h1, h2⟩ := h
      subst h1; subst h2
      exact ⟨a, ip, ha, rfl, rfl, getIPForVM_ok hg⟩

theorem C4_witness :
    ∃ nadAnn ip,
      NetworkNameToNadAnn (str "test-ns/nad1") = Except.ok nadAnn ∧
      ([str "nad1.test-ns.ovn.kubernetes.io"] : List Str) = [nadAnn] ∧
      ([ipNad1] : List IP) = [ip] ∧
      fetchedAt wStore wVMPrimary.name wVMPrimary.ns nadAnn ip :=
  C4_primary_multus_single_entry wStore wVMPrimary ⟨str "test-ns/nad1", true⟩
    rfl rfl [ipNad1] [str "nad1.test-ns.ovn.kubernetes.io"] (by rfl)

/-- C10: a network declaration that is neither a pod network nor a multus
declaration contributes nothing: a VM whose non-empty declaration list
contains only such declarations enumerates, without error, to exactly one
entry — the implicit default network (given a well-formed identity and a
store holding the default record). -/
theorem C10_unknown_declaration_skipped (store : Store) (vm : VirtualMachine) (ip : IP)
    (hne : vm.networks ≠ [])
    (hplain : ∀ x ∈ vm.networks, x.pod = none ∧ x.multus = none)
    (hname : vm.name ≠ []) (hns : vm.ns ≠ [])
    (hstore : store (vm.name ++ '.' :: vm.ns) = some ip) :
    GetIPsForVM store vm = Except.ok ([ip], [defaultNetworkAnn]) := by
  have hcr : getIPCRNameForVM defaultNetworkAnn vm.name vm.ns =
      Except.ok (vm.name ++ '.' :: vm.ns) := by
    unfold getIPCRNameForVM
    rw [if_neg (by decide), if_pos rfl]
    unfold getIPNameForDefaultNetwork
    rw [if_neg (by simp [hname, hns])]
  have hdef : GetIPsForDefaultNetwork store vm.name vm.ns = Except.ok [ip] := by
    unfold GetIPsForDefaultNetwork GetIPForVM
    simp only [hcr, hstore]
  unfold GetIPsForVM
  rw [if_neg hne]
  simp only [processNetworks_skip hplain]
  rw [if_pos (show (!false && !false) = true from rfl)]
  simp only [hdef]
  rfl

theorem C10_witness :
    GetIPsForVM wStore wVMPlain = Except.ok ([ipDef], [defaultNetworkAnn]) :=
  C10_unknown_declaration_skipped wStore wVMPlain ipDef (by decide)
    (by
      intro x hx
      simp [wVMPlain] at hx
      subst hx
      exact ⟨rfl, rfl⟩)
    (by decide) (by decide) (by rfl)

/-- C1 (code bug): on the spec's concrete scenario (VM `test-vm/test-ns`, no
network declarations, store holding record `test-vm.test-ns`), `Execute`
succeeds but returns the VM unchanged — its template annotations stay empty
and lack the resolved key — even though the resolution facade computes a
non-empty annotation set for the same VM and store. The merge step expected
by the repository's own `TestExecute` and README is absent from `Execute`. -/
theorem C1_execute_no_merge :
    Execute wVMEmpty true true true true = Except.ok wVMEmpty ∧
    GetKubeovnAnnsForVM wStore (some wVMEmpty) =
      Except.ok [(str "ovn.kubernetes.io/mac_address", str "00:00:00:00:00:01"),
                 (str "ovn.kubernetes.io/ip_address", str "10.0.0.1")] ∧
    wVMEmpty.templateAnns = [] ∧
    mapGet wVMEmpty.templateAnns (str "ovn.kubernetes.io/mac_address") = none := by
  exact ⟨rfl, rfl, rfl, rfl⟩

end SPX
